import Mathlib

/-!
# podman-sequoia: the Go binding `sequoia.go` over the OpenPGP engine

A shallow embedding of `go/sequoia/sequoia.go`.  The Go functions call a C
engine through cgo.  The engine is a parameter of the embedding (`Engine`):
each primary entry point is a function of the engine state and of the raw
arguments that cross the boundary, and returns the new state, the primary
pointer and the value of the error slot after the call.  Every call that
crosses the boundary is recorded, in order, in the `calls` of a `Run`, so that
what the engine receives and which objects are released can be stated.

Machine integers are naturals and integers with explicit wrap-around:
`C.size_t` is 64 bits unsigned, `C.int` is 32 bits signed, Go `int` is 64 bits
signed.
-/

namespace Sequoia

/-! ## Go side values -/

/-- One octet. -/
abbrev Byte := Fin 256

/-- A Go slice: the nil slice, or a slice over a backing array. -/
inductive Slice (α : Type) where
  | nil : Slice α
  | arr (elems : List α) : Slice α
  deriving DecidableEq

/-- The elements of a slice (none for the nil slice). -/
def Slice.elems {α : Type} : Slice α → List α
  | .nil => []
  | .arr l => l

/-- Whether the slice is the nil slice. -/
def Slice.isNil {α : Type} : Slice α → Bool
  | .nil => true
  | .arr _ => false

/-- Go `len(b)`. -/
def len {α : Type} (b : Slice α) : Nat := b.elems.length

/-- A Go `error`: `none` is nil, `some text` is a value made by `errors.New`. -/
abbrev GoError := Option String

/-- Go `errors.New(text)`. -/
def errors.New (text : String) : GoError := some text

/-- The run-time faults the binding can raise. -/
inductive Panic where
  /-- invalid memory address or nil pointer dereference -/
  | nilDereference
  /-- index out of range -/
  | indexOutOfRange
  /-- gobytes: length out of range -/
  | gobytesLengthOutOfRange
  deriving DecidableEq, Repr

/-! ## C side values -/

/-- A `char *`: null, or the characters stored from that address onward. -/
abbrev CStr := Option (List Char)

/-- An `unsigned char *`: null, or the memory read at each offset from it. -/
abbrev CBuf := Option (Nat → Byte)

/-- The terminating character of a C string. -/
def NUL : Char := Char.ofNat 0

/-- The struct `OpenpgpError`; the binding reads its `message` field directly. -/
structure OpenpgpError where
  addr : Nat
  message : CStr

/-- The engine side keyring context behind a mechanism. -/
structure OpenpgpMechanism where
  addr : Nat

/-- A signature object: what `go_openpgp_signature_get_data` hands out. -/
structure OpenpgpSignature where
  addr : Nat
  data : CBuf
  size : Nat

/-- A verification result object: content buffer with its size, and signer. -/
structure OpenpgpVerificationResult where
  addr : Nat
  content : CBuf
  size : Nat
  signer : CStr

/-- An import result object: a count and, for each index, what the extraction
at that index returns (the string pointer and what it writes to the error
slot). -/
structure OpenpgpImportResult where
  addr : Nat
  count : Nat
  content : Nat → CStr × Option OpenpgpError

/-- The Go struct `SigningMechanism`. -/
structure SigningMechanism where
  mechanism : Option OpenpgpMechanism

/-! ## Integer conversions -/

/-- Conversion to `C.size_t` (64 bits, unsigned). -/
def C.size_t (n : Nat) : Nat := n % 2 ^ 64

/-- Conversion of a `C.size_t` to `C.int` (32 bits, signed, wrapping). -/
def C.int (n : Nat) : Int :=
  if n % 2 ^ 32 < 2 ^ 31 then (n % 2 ^ 32 : Nat) else (n % 2 ^ 32 : Nat) - 2 ^ 32

/-- Go conversion `int(x)` of a `C.size_t` (64 bits, signed, wrapping). -/
def int (n : Nat) : Int :=
  if n % 2 ^ 64 < 2 ^ 63 then (n % 2 ^ 64 : Nat) else (n % 2 ^ 64 : Nat) - 2 ^ 64

/-! ## cgo helpers -/

/-- cgo `C.CString(s)`: a fresh copy of the string followed by the terminator. -/
def C.CString (s : String) : CStr := some (s.data ++ [NUL])

/-- cgo `C.GoString(p)`: the characters before the first terminator; the empty
string for the null pointer. -/
def C.GoString (p : CStr) : String :=
  match p with
  | none => ""
  | some cs => String.mk (cs.takeWhile (fun c => c != NUL))

/-- cgo `C.GoBytes(p, n)`: a fresh slice holding the `n` bytes at `p`.  Length
zero gives an empty slice that is not nil; a negative length panics; reading
through the null pointer faults. -/
def C.GoBytes (p : CBuf) (n : Int) : Except Panic (Slice Byte) :=
  if n = 0 then .ok (.arr [])
  else if n < 0 then .error .gobytesLengthOutOfRange
  else
    match p with
    | none => .error .nilDereference
    | some mem => .ok (.arr ((List.range n.toNat).map mem))

/-- Modelled from the spec: the accessor `go_openpgp_signature_get_data(sig,
&size)`, declared in `goopenpgp.h` (not among the sources): the data pointer of
the object, and its size as written to the `C.size_t` variable the caller
passes. -/
def C.go_openpgp_signature_get_data (sig : OpenpgpSignature) : CBuf × Nat :=
  (sig.data, C.size_t sig.size)

/-- Modelled from the spec: the accessor
`go_openpgp_verification_result_get_content(result, &size)`, declared in
`goopenpgp.h` (not among the sources): the content pointer of the object, and
its size as written to the `C.size_t` variable the caller passes. -/
def C.go_openpgp_verification_result_get_content
    (result : OpenpgpVerificationResult) : CBuf × Nat :=
  (result.content, C.size_t result.size)

/-- Modelled from the spec: the accessor
`go_openpgp_verification_result_get_signer(result)`, declared in `goopenpgp.h`
(not among the sources): the signer string of the object. -/
def C.go_openpgp_verification_result_get_signer
    (result : OpenpgpVerificationResult) : CStr :=
  result.signer

/-- Modelled from the spec: the accessor
`go_openpgp_import_result_get_count(result)`, declared in `goopenpgp.h` (not
among the sources): the count of the object, a `size_t` like the index the
caller passes to the extraction. -/
def C.go_openpgp_import_result_get_count (result : OpenpgpImportResult) : Nat :=
  C.size_t result.count

/-- Modelled from the spec: the accessor
`go_openpgp_import_result_get_content(result, i, &cerr)`, declared in
`goopenpgp.h` (not among the sources): the string pointer for index `i` and the
value left in the error slot; each index extraction can fail on its own. -/
def C.go_openpgp_import_result_get_content
    (result : OpenpgpImportResult) (i : Nat) : CStr × Option OpenpgpError :=
  result.content i

/-! ## The engine and the record of boundary calls -/

/-- The primary entry points of the engine.  Each takes the engine state and
the raw arguments and returns the new state, the primary pointer and the
content of the error slot after the call. -/
structure Engine (σ : Type) where
  mechanism_new_from_directory :
    σ → CStr → σ × Option OpenpgpMechanism × Option OpenpgpError
  mechanism_new_ephemeral :
    σ → σ × Option OpenpgpMechanism × Option OpenpgpError
  sign :
    σ → Option OpenpgpMechanism → CStr → CStr → CBuf → Nat →
      σ × Option OpenpgpSignature × Option OpenpgpError
  verify :
    σ → Option OpenpgpMechanism → CBuf → Nat →
      σ × Option OpenpgpVerificationResult × Option OpenpgpError
  import_keys :
    σ → Option OpenpgpMechanism → CBuf → Nat →
      σ × Option OpenpgpImportResult × Option OpenpgpError

/-- One call across the foreign function boundary, with its arguments. -/
inductive Call where
  | mechanism_new_from_directory (dir : CStr)
  | mechanism_new_ephemeral
  | sign (mech : Option OpenpgpMechanism) (keyIdentity passphrase : CStr)
      (data : CBuf) (size : Nat)
  | verify (mech : Option OpenpgpMechanism) (data : CBuf) (size : Nat)
  | import_keys (mech : Option OpenpgpMechanism) (data : CBuf) (size : Nat)
  | error_free (err : Option OpenpgpError)
  | signature_get_data (sig : OpenpgpSignature)
  | signature_free (sig : OpenpgpSignature)
  | verification_result_get_content (result : OpenpgpVerificationResult)
  | verification_result_get_signer (result : OpenpgpVerificationResult)
  | verification_result_free (result : OpenpgpVerificationResult)
  | import_result_get_count (result : OpenpgpImportResult)
  | import_result_get_content (result : OpenpgpImportResult) (i : Nat)
  | import_result_free (result : OpenpgpImportResult)

/-- Whether the call is a release function applied to the object at `a`. -/
def Call.releases (a : Nat) : Call → Bool
  | .error_free (some e) => e.addr == a
  | .signature_free s => s.addr == a
  | .verification_result_free r => r.addr == a
  | .import_result_free r => r.addr == a
  | _ => false

/-- Whether the call reads a field of the result object at `a`. -/
def Call.extractsFrom (a : Nat) : Call → Bool
  | .signature_get_data s => s.addr == a
  | .verification_result_get_content r => r.addr == a
  | .verification_result_get_signer r => r.addr == a
  | .import_result_get_count r => r.addr == a
  | .import_result_get_content r _ => r.addr == a
  | _ => false

/-- Whether the call enters one of the primary entry points of the engine. -/
def Call.isPrimary : Call → Bool
  | .mechanism_new_from_directory _ => true
  | .mechanism_new_ephemeral => true
  | .sign _ _ _ _ _ => true
  | .verify _ _ _ => true
  | .import_keys _ _ _ => true
  | _ => false

/-- How many times the object at `a` is released in a sequence of calls. -/
def releaseCount (a : Nat) (calls : List Call) : Nat :=
  (calls.filter (Call.releases a)).length

/-- The outcome of running one Go function: the engine state afterwards, the
boundary calls made in order, and what the function returned (or the panic
that ended it). -/
structure Run (σ : Type) (α : Type) where
  state : σ
  calls : List Call
  ret : Except Panic α

/-! ## The Go functions of `sequoia.go` -/

/-- `base` returns the address of the underlying array in `b`, being careful
not to panic when `b` has zero length.  The address of `b[0]` is the pointer
whose memory at offset `i` is `b[i]`; the index expression `b[0]` is bounds
checked. -/
def base (b : Slice Byte) : Except Panic CBuf :=
  if len b = 0 then .ok none
  else
    match b.elems[0]? with
    | none => .error .indexOutOfRange
    | some _ => .ok (some (fun i => b.elems.getD i 0))

/-- The failure branch shared by the entry points: `defer
C.go_openpgp_error_free(cerr)` followed by `errors.New(C.GoString(cerr.message))`.
The deferred release runs also when reading `cerr.message` faults. -/
def failWith {σ α : Type} (st : σ) (call : Call) (cerr : Option OpenpgpError)
    (mk : GoError → α) : Run σ α :=
  match cerr with
  | none => ⟨st, [call, .error_free none], .error .nilDereference⟩
  | some e =>
    ⟨st, [call, .error_free (some e)], .ok (mk (errors.New (C.GoString e.message)))⟩

/-- `NewMechanismFromDirectory(dir)`. -/
def NewMechanismFromDirectory {σ : Type} (eng : Engine σ) (st : σ) (dir : String) :
    Run σ (Option SigningMechanism × GoError) :=
  let call := Call.mechanism_new_from_directory (C.CString dir)
  match eng.mechanism_new_from_directory st (C.CString dir) with
  | (st1, none, cerr) => failWith st1 call cerr (fun e => (none, e))
  | (st1, some cMechanism, _) => ⟨st1, [call], .ok (some ⟨some cMechanism⟩, none)⟩

/-- `NewEphemeralMechanism()`. -/
def NewEphemeralMechanism {σ : Type} (eng : Engine σ) (st : σ) :
    Run σ (Option SigningMechanism × GoError) :=
  let call := Call.mechanism_new_ephemeral
  match eng.mechanism_new_ephemeral st with
  | (st1, none, cerr) => failWith st1 call cerr (fun e => (none, e))
  | (st1, some cMechanism, _) => ⟨st1, [call], .ok (some ⟨some cMechanism⟩, none)⟩

/-- `(m *SigningMechanism) SignWithPassphrase(input, keyIdentity, passphrase)`. -/
def SigningMechanism.SignWithPassphrase {σ : Type} (eng : Engine σ) (st : σ)
    (m : SigningMechanism) (input : Slice Byte) (keyIdentity : String)
    (passphrase : String) : Run σ (Slice Byte × GoError) :=
  let cPassphrase : CStr := if passphrase = "" then none else C.CString passphrase
  match base input with
  | .error p => ⟨st, [], .error p⟩
  | .ok ptr =>
    let call := Call.sign m.mechanism (C.CString keyIdentity) cPassphrase ptr
      (C.size_t (len input))
    match eng.sign st m.mechanism (C.CString keyIdentity) cPassphrase ptr
        (C.size_t (len input)) with
    | (st1, none, cerr) => failWith st1 call cerr (fun e => (.nil, e))
    | (st1, some sig, _) =>
      let cData := (C.go_openpgp_signature_get_data sig).1
      let size := (C.go_openpgp_signature_get_data sig).2
      let calls := [call, .signature_get_data sig, .signature_free sig]
      match C.GoBytes cData (C.int size) with
      | .error p => ⟨st1, calls, .error p⟩
      | .ok bytes => ⟨st1, calls, .ok (bytes, none)⟩

/-- `(m *SigningMechanism) Sign(input, keyIdentity)`. -/
def SigningMechanism.Sign {σ : Type} (eng : Engine σ) (st : σ)
    (m : SigningMechanism) (input : Slice Byte) (keyIdentity : String) :
    Run σ (Slice Byte × GoError) :=
  m.SignWithPassphrase eng st input keyIdentity ""

/-- `(m *SigningMechanism) Verify(unverifiedSignature)`. -/
def SigningMechanism.Verify {σ : Type} (eng : Engine σ) (st : σ)
    (m : SigningMechanism) (unverifiedSignature : Slice Byte) :
    Run σ (Slice Byte × String × GoError) :=
  match base unverifiedSignature with
  | .error p => ⟨st, [], .error p⟩
  | .ok ptr =>
    let call := Call.verify m.mechanism ptr (C.size_t (len unverifiedSignature))
    match eng.verify st m.mechanism ptr (C.size_t (len unverifiedSignature)) with
    | (st1, none, cerr) => failWith st1 call cerr (fun e => (.nil, "", e))
    | (st1, some result, _) =>
      let cContent := (C.go_openpgp_verification_result_get_content result).1
      let size := (C.go_openpgp_verification_result_get_content result).2
      match C.GoBytes cContent (C.int size) with
      | .error p =>
        ⟨st1, [call, .verification_result_get_content result,
          .verification_result_free result], .error p⟩
      | .ok contents =>
        let cSigner := C.go_openpgp_verification_result_get_signer result
        ⟨st1, [call, .verification_result_get_content result,
          .verification_result_get_signer result,
          .verification_result_free result],
          .ok (contents, C.GoString cSigner, none)⟩

/-- The loop `for i := 0; i < int(count); i++` of `ImportKeys`, entered at
index `i` with `remaining` iterations to go (the test `i < int(count)` holds
exactly while `remaining` is positive).  Each iteration extracts the identity
at index `i` and appends its Go string; the error slot the extraction fills is
not looked at. -/
def ImportKeys.loop (result : OpenpgpImportResult) :
    (remaining : Nat) → (i : Nat) → List String → List Call → List String × List Call
  | 0, _, keyIdentities, calls => (keyIdentities, calls)
  | remaining + 1, i, keyIdentities, calls =>
    let cKeyIdentity := (C.go_openpgp_import_result_get_content result (C.size_t i)).1
    ImportKeys.loop result remaining (i + 1)
      (keyIdentities ++ [C.GoString cKeyIdentity])
      (calls ++ [Call.import_result_get_content result (C.size_t i)])

/-- `(m *SigningMechanism) ImportKeys(blob)`. -/
def SigningMechanism.ImportKeys {σ : Type} (eng : Engine σ) (st : σ)
    (m : SigningMechanism) (blob : Slice Byte) : Run σ (Slice String × GoError) :=
  match base blob with
  | .error p => ⟨st, [], .error p⟩
  | .ok ptr =>
    let call := Call.import_keys m.mechanism ptr (C.size_t (len blob))
    match eng.import_keys st m.mechanism ptr (C.size_t (len blob)) with
    | (st1, none, cerr) => failWith st1 call cerr (fun e => (.nil, e))
    | (st1, some result, _) =>
      let count := C.go_openpgp_import_result_get_count result
      let out := ImportKeys.loop result (int count).toNat 0 []
        [call, .import_result_get_count result]
      ⟨st1, out.2, .ok (.arr out.1, none)⟩

/-- `(m *SigningMechanism) Close()`. -/
def SigningMechanism.Close (_m : SigningMechanism) : GoError := none

/-- `(m *SigningMechanism) SupportsSigning()`. -/
def SigningMechanism.SupportsSigning (_m : SigningMechanism) : GoError := none

/-- `(m *SigningMechanism) UntrustedSignatureContents(untrustedSignature)`. -/
def SigningMechanism.UntrustedSignatureContents {σ : Type} (st : σ)
    (_m : SigningMechanism) (_untrustedSignature : Slice Byte) :
    Run σ (Slice Byte × String × GoError) :=
  ⟨st, [], .ok (.nil, "", errors.New "not supported")⟩


/-! ## Helper definitions for the statements -/

/-- The data of a signature object: the `size` bytes behind its data pointer. -/
def OpenpgpSignature.bytes (sig : OpenpgpSignature) : List Byte :=
  match sig.data with
  | none => []
  | some mem => (List.range sig.size).map mem

/-- The content of a verification result object: the `size` bytes behind its
content pointer. -/
def OpenpgpVerificationResult.bytes (result : OpenpgpVerificationResult) : List Byte :=
  match result.content with
  | none => []
  | some mem => (List.range result.size).map mem

/-- The passphrase pointer of a `go_openpgp_sign` call. -/
def Call.signPassphrase : Call → Option CStr
  | .sign _ _ passphrase _ _ => some passphrase
  | _ => none

/-- The buffer pointer and length handed to a primary call that takes input. -/
def Call.inputBuffer : Call → Option (Bool × Nat)
  | .sign _ _ _ data size => some (data.isNone, size)
  | .verify _ data size => some (data.isNone, size)
  | .import_keys _ data size => some (data.isNone, size)
  | _ => none

/-! ## Concrete engines -/

/-- An engine with one key, `FP`.  A signature is the content itself; verifying
gives the buffer back with `FP` as signer.  Importing a blob of `n` bytes
reports `n` identities, `AAAA` first and `BBBB` after it. -/
def toyEngine : Engine Nat where
  mechanism_new_from_directory := fun st _ => (st + 1, some ⟨st⟩, none)
  mechanism_new_ephemeral := fun st => (st + 1, some ⟨st⟩, none)
  sign := fun st _ key _ data size =>
    if C.GoString key = "FP" then (st + 1, some ⟨st, data, size⟩, none)
    else (st + 1, none, some ⟨st, C.CString "key not found"⟩)
  verify := fun st _ data size => (st + 1, some ⟨st, data, size, C.CString "FP"⟩, none)
  import_keys := fun st _ _ size =>
    (st + 1, some ⟨st, size,
      fun i => (if i = 0 then C.CString "AAAA" else C.CString "BBBB", none)⟩, none)

/-- An engine every entry point of which fails with the message
`engine failure`. -/
def failingEngine : Engine Unit where
  mechanism_new_from_directory := fun st _ => (st, none, some ⟨1, C.CString "engine failure"⟩)
  mechanism_new_ephemeral := fun st => (st, none, some ⟨1, C.CString "engine failure"⟩)
  sign := fun st _ _ _ _ _ => (st, none, some ⟨1, C.CString "engine failure"⟩)
  verify := fun st _ _ _ => (st, none, some ⟨1, C.CString "engine failure"⟩)
  import_keys := fun st _ _ _ => (st, none, some ⟨1, C.CString "engine failure"⟩)

/-- The signature object of `hugeEngine`: 2^32 + 1 bytes, all equal to 7. -/
def hugeSignature : OpenpgpSignature := ⟨5, some (fun _ => 7), 4294967297⟩

/-- The verification result of `hugeEngine`: content `[1]`, signer `FP`. -/
def hugeVerification : OpenpgpVerificationResult :=
  ⟨6, some (fun _ => 1), 1, C.CString "FP"⟩

/-- An engine whose signatures are 2^32 + 1 bytes long and which accepts
exactly the signatures of that length. -/
def hugeEngine : Engine Unit where
  mechanism_new_from_directory := fun st _ => (st, some ⟨0⟩, none)
  mechanism_new_ephemeral := fun st => (st, some ⟨0⟩, none)
  sign := fun st _ _ _ _ _ => (st, some hugeSignature, none)
  verify := fun st _ _ size =>
    if size = 4294967297 then (st, some hugeVerification, none)
    else (st, none, some ⟨7, C.CString "bad signature"⟩)
  import_keys := fun st _ _ _ => (st, some ⟨8, 9223372036854775808,
    fun _ => (C.CString "AAAA", none)⟩, none)

/-- The verification result of `bulkEngine`: 2^32 + 1 content bytes, all equal
to 1, signer `FP`. -/
def bulkVerification : OpenpgpVerificationResult :=
  ⟨14, some (fun _ => 1), 4294967297, C.CString "FP"⟩

/-- An engine whose verification results carry 2^32 + 1 bytes of content. -/
def bulkEngine : Engine Unit where
  mechanism_new_from_directory := fun st _ => (st, some ⟨0⟩, none)
  mechanism_new_ephemeral := fun st => (st, some ⟨0⟩, none)
  sign := fun st _ _ _ _ _ => (st, some ⟨15, some (fun _ => 7), 1⟩, none)
  verify := fun st _ _ _ => (st, some bulkVerification, none)
  import_keys := fun st _ _ _ => (st, none, some ⟨16, C.CString "no keys"⟩)

/-- The import result of `lossyEngine`: two entries, the extraction of the
second of which fails. -/
def lossyImport : OpenpgpImportResult :=
  ⟨10, 2, fun i => if i = 0 then (C.CString "AAAA", none)
    else (none, some ⟨11, C.CString "extraction failed"⟩)⟩

/-- An engine whose import succeeds with `lossyImport`. -/
def lossyEngine : Engine Unit where
  mechanism_new_from_directory := fun st _ => (st, some ⟨0⟩, none)
  mechanism_new_ephemeral := fun st => (st, some ⟨0⟩, none)
  sign := fun st _ _ _ data size => (st, some ⟨12, data, size⟩, none)
  verify := fun st _ data size => (st, some ⟨13, data, size, C.CString "FP"⟩, none)
  import_keys := fun st _ _ _ => (st, some lossyImport, none)


/-- A signature object the copy to a Go slice can carry: its size is below
2^31 and its data pointer is null only when the size is zero. -/
def OpenpgpSignature.wellFormed (sig : OpenpgpSignature) : Bool :=
  decide (sig.size < 2 ^ 31) && (sig.data.isSome || sig.size == 0)

/-- A verification result object the copy to a Go slice can carry. -/
def OpenpgpVerificationResult.wellFormed (result : OpenpgpVerificationResult) : Bool :=
  decide (result.size < 2 ^ 31) && (result.content.isSome || result.size == 0)

/-- The reply of a primary entry point keeps the boundary contract: a null
primary pointer comes with an error object, and a result object satisfies
`wf`. -/
def replyOk {σ α : Type} (wf : α → Bool) (reply : σ × Option α × Option OpenpgpError) : Bool :=
  match reply.2.1 with
  | none => reply.2.2.isSome
  | some object => wf object

/-- The mechanism used in the examples. -/
def exampleMechanism : SigningMechanism := ⟨some ⟨0⟩⟩

/-! ## Lemmas on the marshalling helpers -/

theorem takeWhile_terminated (cs rest : List Char) (h : NUL ∉ cs) :
    (cs ++ NUL :: rest).takeWhile (fun c => c != NUL) = cs := by
  induction cs with
  | nil => simp
  | cons c cs ih =>
    have hc : c ≠ NUL := fun e => h (by simp [e])
    have ht : NUL ∉ cs := fun e => h (by simp [e])
    simp [List.takeWhile_cons, hc, ih ht]

theorem GoString_terminated (s : String) (rest : List Char) (h : NUL ∉ s.data) :
    C.GoString (some (s.data ++ NUL :: rest)) = s := by
  simp [C.GoString, takeWhile_terminated s.data rest h]

theorem GoString_CString (s : String) (h : NUL ∉ s.data) :
    C.GoString (C.CString s) = s := by
  simpa [C.CString] using GoString_terminated s [] h

theorem base_eq (b : Slice Byte) :
    base b = .ok (if len b = 0 then none else some (fun i => b.elems.getD i 0)) := by
  unfold base
  by_cases h : len b = 0
  · simp [h]
  · have hpos : 0 < b.elems.length := Nat.pos_of_ne_zero h
    simp [h, List.getElem?_eq_getElem hpos]

theorem C_int_of_lt (n : Nat) (h : n < 2 ^ 31) : C.int n = (n : Int) := by
  unfold C.int
  split <;> omega

theorem int_of_lt (n : Nat) (h : n < 2 ^ 63) : int n = (n : Int) := by
  unfold int
  split <;> omega

theorem size_t_of_lt (n : Nat) (h : n < 2 ^ 64) : C.size_t n = n :=
  Nat.mod_eq_of_lt h

theorem GoBytes_of_lt (mem : Nat → Byte) (n : Nat) (h : n < 2 ^ 31) :
    C.GoBytes (some mem) (C.int n) = .ok (.arr ((List.range n).map mem)) := by
  rw [C_int_of_lt n h]
  unfold C.GoBytes
  by_cases h0 : n = 0
  · simp [h0]
  · have : ¬ ((n : Int) = 0) := by omega
    have h2 : ¬ ((n : Int) < 0) := by omega
    simp [this, h2]

theorem loop_eq (result : OpenpgpImportResult) (n : Nat) :
    ∀ (i : Nat) (ks : List String) (cs : List Call),
      ImportKeys.loop result n i ks cs =
        (ks ++ (List.range' i n).map
            (fun j => C.GoString (C.go_openpgp_import_result_get_content result (C.size_t j)).1),
         cs ++ (List.range' i n).map
            (fun j => Call.import_result_get_content result (C.size_t j))) := by
  induction n with
  | zero => intro i ks cs; simp [ImportKeys.loop]
  | succ n ih =>
    intro i ks cs
    simp [ImportKeys.loop, ih, List.range'_succ]

theorem GoBytes_ne_indexOutOfRange (p : CBuf) (n : Int) :
    C.GoBytes p n ≠ .error .indexOutOfRange := by
  unfold C.GoBytes
  split
  · simp
  · split
    · simp
    · cases p <;> simp

theorem GoBytes_signature (sig : OpenpgpSignature) (h : sig.wellFormed = true) :
    C.GoBytes (C.go_openpgp_signature_get_data sig).1
      (C.int (C.go_openpgp_signature_get_data sig).2) = .ok (.arr sig.bytes) := by
  simp only [OpenpgpSignature.wellFormed, Bool.and_eq_true, decide_eq_true_eq,
    Bool.or_eq_true, beq_iff_eq] at h
  obtain ⟨hlt, hd⟩ := h
  simp only [C.go_openpgp_signature_get_data, OpenpgpSignature.bytes]
  rw [size_t_of_lt _ (by omega)]
  cases hdata : sig.data with
  | none =>
    have h0 : sig.size = 0 := by simpa [hdata] using hd
    simp [h0, C.GoBytes, C.int]
  | some mem => exact GoBytes_of_lt mem sig.size hlt

theorem GoBytes_verification (result : OpenpgpVerificationResult)
    (h : result.wellFormed = true) :
    C.GoBytes (C.go_openpgp_verification_result_get_content result).1
      (C.int (C.go_openpgp_verification_result_get_content result).2)
      = .ok (.arr result.bytes) := by
  simp only [OpenpgpVerificationResult.wellFormed, Bool.and_eq_true, decide_eq_true_eq,
    Bool.or_eq_true, beq_iff_eq] at h
  obtain ⟨hlt, hd⟩ := h
  simp only [C.go_openpgp_verification_result_get_content, OpenpgpVerificationResult.bytes]
  rw [size_t_of_lt _ (by omega)]
  cases hdata : result.content with
  | none =>
    have h0 : result.size = 0 := by simpa [hdata] using hd
    simp [h0, C.GoBytes, C.int]
  | some mem => exact GoBytes_of_lt mem result.size hlt

theorem sign_run {σ : Type} (eng : Engine σ) (st : σ) (m : SigningMechanism)
    (b : Slice Byte) (keyIdentity passphrase : String) (ptr : CBuf)
    (hptr : base b = .ok ptr) :
    ((m.SignWithPassphrase eng st b keyIdentity passphrase).calls.head?).bind
        Call.inputBuffer = some (ptr.isNone, C.size_t (len b)) ∧
      (m.SignWithPassphrase eng st b keyIdentity passphrase).ret
        ≠ .error .indexOutOfRange ∧
      (replyOk OpenpgpSignature.wellFormed
          (eng.sign st m.mechanism (C.CString keyIdentity)
            (if passphrase = "" then none else C.CString passphrase) ptr
            (C.size_t (len b))) = true →
        ∃ v, (m.SignWithPassphrase eng st b keyIdentity passphrase).ret = .ok v) := by
  simp only [SigningMechanism.SignWithPassphrase, hptr]
  rcases hs : eng.sign st m.mechanism (C.CString keyIdentity)
      (if passphrase = "" then none else C.CString passphrase) ptr
      (C.size_t (len b)) with ⟨s1, r, cerr⟩
  cases r with
  | none => cases cerr <;> simp [failWith, Call.inputBuffer, replyOk]
  | some sig =>
    simp only [replyOk]
    refine ⟨?_, ?_, ?_⟩
    · split <;> simp [Call.inputBuffer]
    · have hg := GoBytes_ne_indexOutOfRange (C.go_openpgp_signature_get_data sig).1
        (C.int (C.go_openpgp_signature_get_data sig).2)
      split
      · rename_i p hp
        simp only [ne_eq, Except.error.injEq]
        intro hpi
        exact hg (by rw [hp, hpi])
      · simp
    · intro hwf
      rw [GoBytes_signature sig hwf]
      exact ⟨_, rfl⟩

theorem verify_run {σ : Type} (eng : Engine σ) (st : σ) (m : SigningMechanism)
    (b : Slice Byte) (ptr : CBuf) (hptr : base b = .ok ptr) :
    ((m.Verify eng st b).calls.head?).bind Call.inputBuffer
        = some (ptr.isNone, C.size_t (len b)) ∧
      (m.Verify eng st b).ret ≠ .error .indexOutOfRange ∧
      (replyOk OpenpgpVerificationResult.wellFormed
          (eng.verify st m.mechanism ptr (C.size_t (len b))) = true →
        ∃ v, (m.Verify eng st b).ret = .ok v) := by
  simp only [SigningMechanism.Verify, hptr]
  rcases hs : eng.verify st m.mechanism ptr (C.size_t (len b)) with ⟨s1, r, cerr⟩
  cases r with
  | none => cases cerr <;> simp [failWith, Call.inputBuffer, replyOk]
  | some res =>
    simp only [replyOk]
    refine ⟨?_, ?_, ?_⟩
    · split <;> simp [Call.inputBuffer]
    · have hg := GoBytes_ne_indexOutOfRange
        (C.go_openpgp_verification_result_get_content res).1
        (C.int (C.go_openpgp_verification_result_get_content res).2)
      split
      · rename_i p hp
        simp only [ne_eq, Except.error.injEq]
        intro hpi
        exact hg (by rw [hp, hpi])
      · simp
    · intro hwf
      rw [GoBytes_verification res hwf]
      exact ⟨_, rfl⟩

theorem import_run {σ : Type} (eng : Engine σ) (st : σ) (m : SigningMechanism)
    (b : Slice Byte) (ptr : CBuf) (hptr : base b = .ok ptr) :
    ((m.ImportKeys eng st b).calls.head?).bind Call.inputBuffer
        = some (ptr.isNone, C.size_t (len b)) ∧
      (m.ImportKeys eng st b).ret ≠ .error .indexOutOfRange ∧
      (replyOk (fun _ => true)
          (eng.import_keys st m.mechanism ptr (C.size_t (len b))) = true →
        ∃ v, (m.ImportKeys eng st b).ret = .ok v) := by
  simp only [SigningMechanism.ImportKeys, hptr]
  rcases hs : eng.import_keys st m.mechanism ptr (C.size_t (len b)) with ⟨s1, r, cerr⟩
  cases r with
  | none => cases cerr <;> simp [failWith, Call.inputBuffer, replyOk]
  | some res => simp [replyOk, loop_eq, Call.inputBuffer]

/-! ## The claims -/

/-- C3: `UntrustedSignatureContents` is unsupported whatever the mechanism and
the input: it returns nil contents, the empty short key identifier and the
error `not supported`, makes no call across the boundary and leaves the engine
state alone. -/
theorem untrusted_signature_contents_not_supported {σ : Type} (st : σ)
    (m : SigningMechanism) (untrustedSignature : Slice Byte) :
    (m.UntrustedSignatureContents st untrustedSignature).ret
        = .ok (.nil, "", some "not supported") ∧
      (m.UntrustedSignatureContents st untrustedSignature).calls = [] ∧
      (m.UntrustedSignatureContents st untrustedSignature).state = st := by
  simp [SigningMechanism.UntrustedSignatureContents, errors.New]

/-- C2: when the engine call of `SignWithPassphrase`, `Verify` or `ImportKeys`
returns a null primary pointer and an error object whose message is the C
string `msg`, the operation returns the error with text exactly `msg` and
nothing else (nil bytes, empty key identity, nil identity list); and `Verify`
never returns contents or a signer together with an error. -/
theorem failure_marshalling {σ : Type} (eng : Engine σ) (st st1 : σ)
    (m : SigningMechanism) (b : Slice Byte) (keyIdentity passphrase : String)
    (e : OpenpgpError) (msg : String) (rest : List Char)
    (hmsg : e.message = some (msg.data ++ NUL :: rest)) (hnul : NUL ∉ msg.data) :
    ((∀ ptr, base b = .ok ptr →
        eng.sign st m.mechanism (C.CString keyIdentity)
          (if passphrase = "" then none else C.CString passphrase) ptr (C.size_t (len b))
          = (st1, none, some e)) →
      (m.SignWithPassphrase eng st b keyIdentity passphrase).ret = .ok (.nil, some msg)) ∧
    ((∀ ptr, base b = .ok ptr →
        eng.verify st m.mechanism ptr (C.size_t (len b)) = (st1, none, some e)) →
      (m.Verify eng st b).ret = .ok (.nil, "", some msg)) ∧
    ((∀ ptr, base b = .ok ptr →
        eng.import_keys st m.mechanism ptr (C.size_t (len b)) = (st1, none, some e)) →
      (m.ImportKeys eng st b).ret = .ok (.nil, some msg)) ∧
    (∀ contents signer text,
      (m.Verify eng st b).ret = .ok (contents, signer, some text) →
        contents = .nil ∧ signer = "") := by
  have hgo : C.GoString e.message = msg := by
    rw [hmsg]; exact GoString_terminated msg rest hnul
  obtain ⟨ptr, hptr⟩ : ∃ ptr, base b = .ok ptr := ⟨_, base_eq b⟩
  refine ⟨?_, ?_, ?_, ?_⟩
  · intro h
    simp [SigningMechanism.SignWithPassphrase, hptr, h ptr hptr, failWith, errors.New, hgo]
  · intro h
    simp [SigningMechanism.Verify, hptr, h ptr hptr, failWith, errors.New, hgo]
  · intro h
    simp [SigningMechanism.ImportKeys, hptr, h ptr hptr, failWith, errors.New, hgo]
  · intro contents signer text h
    simp only [SigningMechanism.Verify, hptr] at h
    rcases hv : eng.verify st m.mechanism ptr (C.size_t (len b)) with ⟨s2, r, cerr⟩
    rw [hv] at h
    cases r with
    | none =>
      cases cerr with
      | none => simp [failWith] at h
      | some e2 =>
        simp [failWith] at h
        exact ⟨h.1.symm, h.2.1.symm⟩
    | some res =>
      simp only at h
      split at h <;> simp at h

/-- Witness of C2 on the engine that always fails with `engine failure`. -/
theorem failure_marshalling_witness :
    (exampleMechanism.SignWithPassphrase failingEngine () (.arr [1, 2]) "FP" "secret").ret
        = .ok (.nil, some "engine failure") ∧
      (exampleMechanism.Verify failingEngine () (.arr [1, 2])).ret
        = .ok (.nil, "", some "engine failure") ∧
      (exampleMechanism.ImportKeys failingEngine () (.arr [1, 2])).ret
        = .ok (.nil, some "engine failure") :=
  have h := failure_marshalling failingEngine () () exampleMechanism (.arr [1, 2]) "FP"
    "secret" ⟨1, C.CString "engine failure"⟩ "engine failure" [] rfl (by decide)
  ⟨h.1 (fun _ _ => rfl), h.2.1 (fun _ _ => rfl), h.2.2.1 (fun _ _ => rfl)⟩

/-- C7, as written, fails: `SignWithPassphrase` called with the empty string as
passphrase hands the engine the null pointer, exactly what `Sign` hands over,
and not a copy of the empty string. -/
theorem empty_passphrase_is_null :
    ((exampleMechanism.SignWithPassphrase toyEngine 0 (.arr [1]) "FP" "").calls.head?).bind
        Call.signPassphrase = some none ∧
      ((exampleMechanism.Sign toyEngine 0 (.arr [1]) "FP").calls.head?).bind
        Call.signPassphrase = some none ∧
      some (C.CString "") ≠ (some none : Option CStr) ∧
      C.CString "" = some [NUL] := by
  refine ⟨rfl, rfl, ?_, rfl⟩
  simp [C.CString]

/-- C7, amended: the first boundary call of `SignWithPassphrase` is the sign
call, and its passphrase pointer is null exactly when the passphrase string is
empty; a passphrase that is not empty arrives as a pointer to a copy of it
followed by the terminator.  `Sign` is `SignWithPassphrase` with the empty
string, so it passes the null pointer. -/
theorem passphrase_marshalling {σ : Type} (eng : Engine σ) (st : σ)
    (m : SigningMechanism) (input : Slice Byte) (keyIdentity passphrase : String) :
    ((m.SignWithPassphrase eng st input keyIdentity passphrase).calls.head?).bind
        Call.signPassphrase
        = some (if passphrase = "" then none else some (passphrase.data ++ [NUL])) ∧
      (((m.SignWithPassphrase eng st input keyIdentity passphrase).calls.head?).bind
        Call.signPassphrase = some none ↔ passphrase = "") ∧
      m.Sign eng st input keyIdentity = m.SignWithPassphrase eng st input keyIdentity "" ∧
      ((m.Sign eng st input keyIdentity).calls.head?).bind Call.signPassphrase
        = some none := by
  obtain ⟨ptr, hptr⟩ : ∃ ptr, base input = .ok ptr := ⟨_, base_eq input⟩
  have key : ∀ p : String,
      ((m.SignWithPassphrase eng st input keyIdentity p).calls.head?).bind
        Call.signPassphrase = some (if p = "" then none else some (p.data ++ [NUL])) := by
    intro p
    simp only [SigningMechanism.SignWithPassphrase, hptr]
    rcases hs : eng.sign st m.mechanism (C.CString keyIdentity)
        (if p = "" then none else C.CString p) ptr (C.size_t (len input)) with ⟨s1, r, cerr⟩
    cases r with
    | none =>
      cases cerr <;> by_cases hp : p = "" <;> simp [failWith, Call.signPassphrase, C.CString, hp]
    | some sig =>
      simp only
      split <;> by_cases hp : p = "" <;> simp [Call.signPassphrase, C.CString, hp]
  refine ⟨key passphrase, ?_, rfl, ?_⟩
  · rw [key passphrase]
    by_cases hp : passphrase = "" <;> simp [hp]
  · have := key ""
    simpa [SigningMechanism.Sign] using this

/-- C8: `base` never faults; it returns the null pointer exactly for the
slices of length zero (nil or empty) and otherwise a pointer through which
offset `i` reads `b[i]`.  With an input of length zero `SignWithPassphrase`,
`Sign`, `Verify` and `ImportKeys` reach the engine and hand it `(null, 0)`;
none of them panics with an index out of range, and none panics at all when
the reply of the engine keeps the boundary contract. -/
theorem base_zero_length {σ : Type} (eng : Engine σ) (st : σ) (m : SigningMechanism)
    (b : Slice Byte) (keyIdentity passphrase : String) :
    (∃ p, base b = .ok p ∧ (p = none ↔ len b = 0) ∧
      ∀ mem, p = some mem → ∀ i (h : i < b.elems.length), mem i = b.elems.get ⟨i, h⟩) ∧
    base .nil = .ok none ∧ base (.arr []) = .ok none ∧
    (len b = 0 →
      ((m.SignWithPassphrase eng st b keyIdentity passphrase).calls.head?).bind
          Call.inputBuffer = some (true, 0) ∧
        ((m.Sign eng st b keyIdentity).calls.head?).bind Call.inputBuffer = some (true, 0) ∧
        ((m.Verify eng st b).calls.head?).bind Call.inputBuffer = some (true, 0) ∧
        ((m.ImportKeys eng st b).calls.head?).bind Call.inputBuffer = some (true, 0)) ∧
    ((m.SignWithPassphrase eng st b keyIdentity passphrase).ret ≠ .error .indexOutOfRange ∧
      (m.Sign eng st b keyIdentity).ret ≠ .error .indexOutOfRange ∧
      (m.Verify eng st b).ret ≠ .error .indexOutOfRange ∧
      (m.ImportKeys eng st b).ret ≠ .error .indexOutOfRange) ∧
    (len b = 0 →
      (replyOk OpenpgpSignature.wellFormed
          (eng.sign st m.mechanism (C.CString keyIdentity)
            (if passphrase = "" then none else C.CString passphrase) none 0) = true →
        ∃ v, (m.SignWithPassphrase eng st b keyIdentity passphrase).ret = .ok v) ∧
      (replyOk OpenpgpSignature.wellFormed
          (eng.sign st m.mechanism (C.CString keyIdentity) none none 0) = true →
        ∃ v, (m.Sign eng st b keyIdentity).ret = .ok v) ∧
      (replyOk OpenpgpVerificationResult.wellFormed
          (eng.verify st m.mechanism none 0) = true →
        ∃ v, (m.Verify eng st b).ret = .ok v) ∧
      (replyOk (fun _ => true) (eng.import_keys st m.mechanism none 0) = true →
        ∃ v, (m.ImportKeys eng st b).ret = .ok v)) := by
  have hbase : ∀ c : Slice Byte, len c = 0 → base c = .ok none := by
    intro c hc
    rw [base_eq, if_pos hc]
  have hS := fun p => sign_run eng st m b keyIdentity p
  have hV := verify_run eng st m b
  have hI := import_run eng st m b
  refine ⟨⟨_, base_eq b, ?_, ?_⟩, hbase _ rfl, hbase _ rfl, ?_, ?_, ?_⟩
  · by_cases h : len b = 0 <;> simp [h]
  · intro mem hmem i hi
    by_cases h : len b = 0
    · simp [h] at hmem
    · simp only [h, if_false, Option.some.injEq] at hmem
      rw [← hmem]
      simp [List.getD, List.getElem?_eq_getElem hi]
  · intro h0
    have hb := hbase b h0
    have hsz : C.size_t (len b) = 0 := by simp [h0, C.size_t]
    refine ⟨?_, ?_, ?_, ?_⟩
    · simpa [hsz] using (hS passphrase none hb).1
    · simpa [hsz, SigningMechanism.Sign] using (hS "" none hb).1
    · simpa [hsz] using (hV none hb).1
    · simpa [hsz] using (hI none hb).1
  · exact ⟨(hS passphrase _ (base_eq b)).2.1, (hS "" _ (base_eq b)).2.1,
      (hV _ (base_eq b)).2.1, (hI _ (base_eq b)).2.1⟩
  · intro h0
    have hb := hbase b h0
    have hsz : C.size_t (len b) = 0 := by simp [h0, C.size_t]
    refine ⟨?_, ?_, ?_, ?_⟩
    · have := (hS passphrase none hb).2.2
      rwa [hsz] at this
    · have := (hS "" none hb).2.2
      rw [hsz] at this
      simpa [SigningMechanism.Sign] using this
    · have := (hV none hb).2.2
      rwa [hsz] at this
    · have := (hI none hb).2.2
      rwa [hsz] at this

/-- Witness of C8: the nil slice on the engine with one key. -/
theorem base_zero_length_witness :
    len (Slice.nil : Slice Byte) = 0 ∧
      ((exampleMechanism.Sign toyEngine 0 .nil "FP").calls.head?).bind Call.inputBuffer
        = some (true, 0) ∧
      (∃ v, (exampleMechanism.Sign toyEngine 0 .nil "FP").ret = .ok v) ∧
      (∃ v, (exampleMechanism.Verify toyEngine 0 .nil).ret = .ok v) ∧
      (∃ v, (exampleMechanism.ImportKeys toyEngine 0 .nil).ret = .ok v) :=
  have h := base_zero_length toyEngine 0 exampleMechanism .nil "FP" ""
  ⟨rfl, (h.2.2.2.1 rfl).2.1, (h.2.2.2.2.2 rfl).2.1 rfl, (h.2.2.2.2.2 rfl).2.2.1 rfl,
    (h.2.2.2.2.2 rfl).2.2.2 rfl⟩


/-- C10, as written, fails: the engine hands out a signature object whose data
buffer has 2^32 + 1 bytes, a size that fits `size_t`, and `Sign` returns one
byte: the conversion of the size to `C.int` wraps 2^32 + 1 to 1.  In the same
way `Verify` returns one byte of a content buffer of 2^32 + 1 bytes. -/
theorem huge_signature_truncated :
    (exampleMechanism.Sign hugeEngine () (.arr [1]) "FP").ret = .ok (.arr [7], none) ∧
      hugeSignature.size = 4294967297 ∧ hugeSignature.size < 2 ^ 64 ∧
      hugeSignature.bytes.length = 4294967297 ∧
      C.int (C.size_t hugeSignature.size) = 1 ∧
      (exampleMechanism.Verify bulkEngine () (.arr [7])).ret
        = .ok (.arr [1], "FP", none) ∧
      bulkVerification.bytes.length = 4294967297 := by
  refine ⟨rfl, rfl, by decide, ?_, by decide, rfl, ?_⟩
  · simp only [OpenpgpSignature.bytes, hugeSignature, List.length_map, List.length_range]
  · simp only [OpenpgpVerificationResult.bytes, bulkVerification, List.length_map,
      List.length_range]

/-- C10, amended: for every size below 2^31 the extraction is exact.  When the
engine's sign call returns a signature object of size `n < 2^31` (with a data
pointer that is null only for `n = 0`), `SignWithPassphrase` returns exactly the
`n` bytes of its data buffer; when the engine's verify call returns a
verification result of size `n < 2^31`, `Verify` returns exactly the `n` bytes
of its content buffer. -/
theorem buffer_extraction_exact {σ : Type} (eng : Engine σ) (st st1 : σ)
    (m : SigningMechanism) (input : Slice Byte) (keyIdentity passphrase : String)
    (cerr : Option OpenpgpError) :
    (∀ sig : OpenpgpSignature, sig.size < 2 ^ 31 → (sig.data.isSome ∨ sig.size = 0) →
      (∀ ptr, base input = .ok ptr →
        eng.sign st m.mechanism (C.CString keyIdentity)
          (if passphrase = "" then none else C.CString passphrase) ptr
          (C.size_t (len input)) = (st1, some sig, cerr)) →
      (m.SignWithPassphrase eng st input keyIdentity passphrase).ret
          = .ok (.arr sig.bytes, none) ∧
        sig.bytes.length = sig.size ∧
        ∀ mem, sig.data = some mem → ∀ i (h : i < sig.bytes.length),
          sig.bytes.get ⟨i, h⟩ = mem i) ∧
    (∀ result : OpenpgpVerificationResult, result.size < 2 ^ 31 →
      (result.content.isSome ∨ result.size = 0) →
      (∀ ptr, base input = .ok ptr →
        eng.verify st m.mechanism ptr (C.size_t (len input)) = (st1, some result, cerr)) →
      (m.Verify eng st input).ret
          = .ok (.arr result.bytes, C.GoString result.signer, none) ∧
        result.bytes.length = result.size ∧
        ∀ mem, result.content = some mem → ∀ i (h : i < result.bytes.length),
          result.bytes.get ⟨i, h⟩ = mem i) := by
  obtain ⟨ptr, hptr⟩ : ∃ ptr, base input = .ok ptr := ⟨_, base_eq input⟩
  refine ⟨?_, ?_⟩
  · intro sig hlt hd hs
    have hwf : sig.wellFormed = true := by
      simp only [OpenpgpSignature.wellFormed, Bool.and_eq_true, decide_eq_true_eq,
        Bool.or_eq_true, beq_iff_eq]
      exact ⟨hlt, hd⟩
    refine ⟨?_, ?_, ?_⟩
    · simp only [SigningMechanism.SignWithPassphrase, hptr, hs ptr hptr,
        GoBytes_signature sig hwf]
    · cases hdata : sig.data with
      | none =>
        have h0 : sig.size = 0 := by simpa [hdata] using hd
        simp [OpenpgpSignature.bytes, hdata, h0]
      | some mem => simp [OpenpgpSignature.bytes, hdata]
    · intro mem hmem i hi
      simp [OpenpgpSignature.bytes, hmem]
  · intro result hlt hd hs
    have hwf : result.wellFormed = true := by
      simp only [OpenpgpVerificationResult.wellFormed, Bool.and_eq_true, decide_eq_true_eq,
        Bool.or_eq_true, beq_iff_eq]
      exact ⟨hlt, hd⟩
    refine ⟨?_, ?_, ?_⟩
    · simp only [SigningMechanism.Verify, hptr, hs ptr hptr,
        GoBytes_verification result hwf, C.go_openpgp_verification_result_get_signer]
    · cases hdata : result.content with
      | none =>
        have h0 : result.size = 0 := by simpa [hdata] using hd
        simp [OpenpgpVerificationResult.bytes, hdata, h0]
      | some mem => simp [OpenpgpVerificationResult.bytes, hdata]
    · intro mem hmem i hi
      simp [OpenpgpVerificationResult.bytes, hmem]

/-- Witness of C10 amended: a two byte signature on the engine with one key. -/
theorem buffer_extraction_exact_witness :
    (exampleMechanism.SignWithPassphrase toyEngine 0 (.arr [72, 105]) "FP" "").ret
      = .ok (.arr [72, 105], none) :=
  ((buffer_extraction_exact toyEngine 0 1 exampleMechanism (.arr [72, 105]) "FP" "" none).1
    ⟨0, some (fun i => ([72, 105] : List Byte).getD i 0), 2⟩ (by decide) (Or.inl rfl)
    (fun _ h => by cases h; rfl)).1

/-- C1, as written, fails: the engine's sign succeeds for the content `[1]` and
the key `FP`, and its verify applied to the data of the signature object it
produced (all 2^32 + 1 bytes) yields the content `[1]` and the signer `FP`;
yet `Sign` returns a single byte of that signature and `Verify` of what `Sign`
returned is an error.  The content is cut in the same way: of a verification
result that carries 2^32 + 1 content bytes `Verify` returns one byte. -/
theorem huge_signature_breaks_roundtrip :
    hugeEngine.sign () exampleMechanism.mechanism (C.CString "FP") none
        (some (fun i => ([1] : List Byte).getD i 0)) 1 = ((), some hugeSignature, none) ∧
      hugeEngine.verify () exampleMechanism.mechanism hugeSignature.data
        (C.size_t hugeSignature.size) = ((), some hugeVerification, none) ∧
      hugeVerification.bytes = [1] ∧ C.GoString hugeVerification.signer = "FP" ∧
      (exampleMechanism.Sign hugeEngine () (.arr [1]) "FP").ret = .ok (.arr [7], none) ∧
      (exampleMechanism.Verify hugeEngine () (.arr [7])).ret
        = .ok (.nil, "", some "bad signature") ∧
      (exampleMechanism.Sign bulkEngine () (.arr [1]) "FP").ret = .ok (.arr [7], none) ∧
      bulkVerification.bytes.length = 4294967297 ∧
      (exampleMechanism.Verify bulkEngine () (.arr [7])).ret
        = .ok (.arr [1], "FP", none) := by
  refine ⟨rfl, rfl, rfl, by decide, rfl, rfl, rfl, ?_, rfl⟩
  simp only [OpenpgpVerificationResult.bytes, bulkVerification, List.length_map,
    List.length_range]

/-- C1, amended: sign then verify gives back the content and the key identity
whenever the sizes fit the copy.  If the engine's sign call for `(content,
keyIdentity)` returns a signature object of size below 2^31 with a data buffer,
and the engine's verify call on a buffer holding exactly the data of that
signature object returns a result whose content is `content` (of length below
2^31) and whose signer is the C string `keyIdentity`, then `Sign` returns
exactly the signature data and `Verify` of it returns exactly `(content,
keyIdentity)` with a nil error. -/
theorem sign_verify_roundtrip {σ : Type} (eng : Engine σ) (st st1 st2 : σ)
    (m : SigningMechanism) (content : Slice Byte) (keyIdentity : String)
    (sig : OpenpgpSignature) (result : OpenpgpVerificationResult)
    (cerr1 cerr2 : Option OpenpgpError) (rest : List Char)
    (hsign : ∀ ptr, base content = .ok ptr →
      eng.sign st m.mechanism (C.CString keyIdentity) none ptr (C.size_t (len content))
        = (st1, some sig, cerr1))
    (hsize : sig.size < 2 ^ 31) (hdata : sig.data.isSome ∨ sig.size = 0)
    (hverify : ∀ ptr, base (.arr sig.bytes) = .ok ptr →
      eng.verify st1 m.mechanism ptr (C.size_t (len (Slice.arr sig.bytes)))
        = (st2, some result, cerr2))
    (hcontent : result.bytes = content.elems) (hlen : result.size = len content)
    (hbound : len content < 2 ^ 31)
    (hsigner : result.signer = some (keyIdentity.data ++ NUL :: rest))
    (hnul : NUL ∉ keyIdentity.data) :
    (m.Sign eng st content keyIdentity).ret = .ok (.arr sig.bytes, none) ∧
      (m.Sign eng st content keyIdentity).state = st1 ∧
      (m.Verify eng st1 (.arr sig.bytes)).ret
        = .ok (.arr content.elems, keyIdentity, none) := by
  obtain ⟨ptr, hptr⟩ : ∃ ptr, base content = .ok ptr := ⟨_, base_eq content⟩
  obtain ⟨ptr2, hptr2⟩ : ∃ ptr, base (.arr sig.bytes) = .ok ptr := ⟨_, base_eq _⟩
  have hwf : sig.wellFormed = true := by
    simp only [OpenpgpSignature.wellFormed, Bool.and_eq_true, decide_eq_true_eq,
      Bool.or_eq_true, beq_iff_eq]
    exact ⟨hsize, hdata⟩
  have hwf2 : result.wellFormed = true := by
    simp only [OpenpgpVerificationResult.wellFormed, Bool.and_eq_true, decide_eq_true_eq,
      Bool.or_eq_true, beq_iff_eq]
    refine ⟨by omega, ?_⟩
    cases hc : result.content with
    | some mem => exact Or.inl rfl
    | none =>
      right
      have : content.elems = [] := by
        rw [← hcontent]; simp [OpenpgpVerificationResult.bytes, hc]
      rw [hlen]; simp [len, this]
  have hgo : C.GoString result.signer = keyIdentity := by
    rw [hsigner]; exact GoString_terminated keyIdentity rest hnul
  have hS := hsign ptr hptr
  have hV := hverify ptr2 hptr2
  refine ⟨?_, ?_, ?_⟩
  · simp only [SigningMechanism.Sign, SigningMechanism.SignWithPassphrase, hptr, if_true,
      hS, GoBytes_signature sig hwf]
  · simp only [SigningMechanism.Sign, SigningMechanism.SignWithPassphrase, hptr, if_true,
      hS, GoBytes_signature sig hwf]
  · simp only [SigningMechanism.Verify, hptr2, hV, GoBytes_verification result hwf2,
      C.go_openpgp_verification_result_get_signer, hgo, hcontent]

/-- Witness of C1 amended: `Hi` signed with the key `FP` on the engine with one
key. -/
theorem sign_verify_roundtrip_witness :
    (exampleMechanism.Sign toyEngine 0 (.arr [72, 105]) "FP").ret
        = .ok (.arr [72, 105], none) ∧
      (exampleMechanism.Verify toyEngine 1 (.arr [72, 105])).ret
        = .ok (.arr [72, 105], "FP", none) :=
  have h := sign_verify_roundtrip toyEngine 0 1 2 exampleMechanism (.arr [72, 105]) "FP"
    ⟨0, some (fun i => ([72, 105] : List Byte).getD i 0), 2⟩
    ⟨1, some (fun i => ([72, 105] : List Byte).getD i 0), 2, C.CString "FP"⟩
    none none [] (fun _ h => by cases h; rfl) (by decide) (Or.inl rfl)
    (fun _ h => by cases h; rfl) rfl rfl (by decide) rfl (by decide)
  ⟨h.1, h.2.2⟩

/-- C6, as written, fails: the engine's import succeeds with a result object of
count 2^63 every extraction of which succeeds, and `ImportKeys` returns the
empty list: `int(count)` is negative, so the loop body never runs. -/
theorem huge_count_yields_no_identity :
    (hugeEngine.import_keys () exampleMechanism.mechanism
        (some (fun i => ([1] : List Byte).getD i 0)) 1).2.1.map (fun r => r.count)
        = some 9223372036854775808 ∧
      (hugeEngine.import_keys () exampleMechanism.mechanism
        (some (fun i => ([1] : List Byte).getD i 0)) 1).2.1.map
          (fun r => C.GoString (C.go_openpgp_import_result_get_content r 0).1)
        = some "AAAA" ∧
      int (C.size_t 9223372036854775808) = -9223372036854775808 ∧
      (exampleMechanism.ImportKeys hugeEngine () (.arr [1])).ret = .ok (.arr [], none) := by
  exact ⟨rfl, by decide, by decide, rfl⟩

/-- C6, amended: for a count below 2^63 the identities come back completely and
in order.  If the engine's import succeeds with a result object of count
`n < 2^63` whose extraction at every index `i < n` returns the C string
`ids i`, then `ImportKeys` returns a nil error and the list (not nil, also for
`n = 0`) of length exactly `n` whose element `i` is `ids i`. -/
theorem import_keys_complete {σ : Type} (eng : Engine σ) (st st1 : σ)
    (m : SigningMechanism) (blob : Slice Byte) (result : OpenpgpImportResult)
    (cerr : Option OpenpgpError) (ids : Nat → String)
    (himport : ∀ ptr, base blob = .ok ptr →
      eng.import_keys st m.mechanism ptr (C.size_t (len blob)) = (st1, some result, cerr))
    (hcount : result.count < 2 ^ 63)
    (hids : ∀ i, i < result.count →
      ∃ rest, (result.content i).1 = some ((ids i).data ++ NUL :: rest) ∧
        NUL ∉ (ids i).data) :
    ∃ keyIdentities : List String,
      (m.ImportKeys eng st blob).ret = .ok (.arr keyIdentities, none) ∧
        keyIdentities.length = result.count ∧
        (∀ i (h : i < keyIdentities.length), keyIdentities.get ⟨i, h⟩ = ids i) ∧
        keyIdentities = (List.range result.count).map ids := by
  obtain ⟨ptr, hptr⟩ : ∃ ptr, base blob = .ok ptr := ⟨_, base_eq blob⟩
  have hI := himport ptr hptr
  have hc : (int (C.go_openpgp_import_result_get_count result)).toNat = result.count := by
    simp only [C.go_openpgp_import_result_get_count]
    rw [size_t_of_lt _ (by omega), int_of_lt _ hcount]
    simp
  have hmap : (List.range' 0 result.count).map
      (fun j => C.GoString (C.go_openpgp_import_result_get_content result (C.size_t j)).1)
      = (List.range result.count).map ids := by
    rw [List.range_eq_range']
    apply List.map_congr_left
    intro j hj
    have hj2 : j < result.count := by
      have := (List.mem_range'_1.mp hj).2
      omega
    obtain ⟨rest, hr, hn⟩ := hids j hj2
    simp only [C.go_openpgp_import_result_get_content]
    rw [size_t_of_lt _ (by omega), hr]
    exact GoString_terminated (ids j) rest hn
  refine ⟨(List.range result.count).map ids, ?_, by simp, ?_, rfl⟩
  · simp only [SigningMechanism.ImportKeys, hptr, hI, hc, loop_eq, List.nil_append, hmap]
  · intro i h
    simp

/-- Witness of C6 amended: a blob of two certificates on the engine with one
key gives `AAAA` then `BBBB`. -/
theorem import_keys_complete_witness :
    ∃ keyIdentities : List String,
      (exampleMechanism.ImportKeys toyEngine 0 (.arr [1, 2])).ret
          = .ok (.arr keyIdentities, none) ∧
        keyIdentities.length = 2 ∧
        (∀ i (h : i < keyIdentities.length),
          keyIdentities.get ⟨i, h⟩ = (if i = 0 then "AAAA" else "BBBB")) ∧
        keyIdentities = (List.range 2).map (fun i => if i = 0 then "AAAA" else "BBBB") :=
  import_keys_complete toyEngine 0 1 exampleMechanism (.arr [1, 2])
    ⟨0, 2, fun i => (if i = 0 then C.CString "AAAA" else C.CString "BBBB", none)⟩ none
    (fun i => if i = 0 then "AAAA" else "BBBB")
    (fun _ h => by cases h; rfl) (by decide)
    (fun i _ => by
      by_cases h : i = 0
      · exact ⟨[], by simp [h, C.CString], by simp [h]; decide⟩
      · exact ⟨[], by simp [h, C.CString], by simp [h]; decide⟩)

/-- C5, at the failing input: the engine's import succeeds with a two entry
result whose extraction at index 1 returns a null string and fills the error
slot; `ImportKeys` returns a nil error and the empty string in place of the
identity at index 1. -/
theorem import_keys_hides_extraction_failure :
    lossyEngine.import_keys () exampleMechanism.mechanism
        (some (fun i => ([1] : List Byte).getD i 0)) 1 = ((), some lossyImport, none) ∧
      lossyImport.count = 2 ∧
      (C.go_openpgp_import_result_get_content lossyImport 1).1 = none ∧
      (C.go_openpgp_import_result_get_content lossyImport 1).2.isSome = true ∧
      (exampleMechanism.ImportKeys lossyEngine () (.arr [1])).ret
        = .ok (.arr ["AAAA", ""], none) := by
  exact ⟨rfl, rfl, rfl, rfl, rfl⟩

/-- C9, at the failing input: `ImportKeys` makes four boundary calls (the
import, the count, two extractions) and releases neither the import result
object (address 10) nor the error object of the failed extraction (address
11); `Sign` and `Verify` on the same engine release their result object once,
after the extraction. -/
theorem import_keys_releases_nothing :
    (exampleMechanism.ImportKeys lossyEngine () (.arr [1])).calls.length = 4 ∧
      ((exampleMechanism.ImportKeys lossyEngine () (.arr [1])).calls.map
        (Call.extractsFrom 10)) = [false, true, true, true] ∧
      releaseCount 10 (exampleMechanism.ImportKeys lossyEngine () (.arr [1])).calls = 0 ∧
      releaseCount 11 (exampleMechanism.ImportKeys lossyEngine () (.arr [1])).calls = 0 ∧
      ((exampleMechanism.Sign lossyEngine () (.arr [1]) "FP").calls.map
        (fun c => (Call.extractsFrom 12 c, Call.releases 12 c)))
        = [(false, false), (true, false), (false, true)] ∧
      ((exampleMechanism.Verify lossyEngine () (.arr [1])).calls.map
        (fun c => (Call.extractsFrom 13 c, Call.releases 13 c)))
        = [(false, false), (true, false), (true, false), (false, true)] := by
  exact ⟨rfl, rfl, rfl, rfl, rfl, rfl⟩

/-- C4, at the failing input: `NewEphemeralMechanism` takes no certificate
blobs; its only boundary call creates the keyring, it imports nothing and
returns the mechanism and a nil error, with no identity list.  Importing the
certificate into that fresh mechanism with `ImportKeys` is what yields the
identity. -/
theorem new_ephemeral_mechanism_imports_nothing :
    (NewEphemeralMechanism toyEngine 0).calls.map Call.isPrimary = [true] ∧
      (NewEphemeralMechanism toyEngine 0).calls.map Call.inputBuffer = [none] ∧
      (NewEphemeralMechanism toyEngine 0).ret.toOption.map (fun r => r.2) = some none ∧
      (NewEphemeralMechanism toyEngine 0).ret.toOption.map
        (fun r => r.1.map (fun mech => mech.mechanism.map (fun h => h.addr)))
        = some (some (some 0)) ∧
      (NewEphemeralMechanism toyEngine 0).state = 1 ∧
      (exampleMechanism.ImportKeys toyEngine 1 (.arr [9])).ret
        = .ok (.arr ["AAAA"], none) := by
  exact ⟨rfl, rfl, rfl, rfl, rfl, rfl⟩

end Sequoia
